import Mathlib

/-!
Shallow embedding of the article-link scraper (`src/scraper/LinkCollector.py`,
`src/scraper/BatchScraper.py`, `src/scraper.py`) in Lean 4.

Strings are handled through their underlying character lists so that every
operation (Python `rstrip`, `split`, `startswith`, `in`, `lower`) is a plain
structurally recursive function that the kernel can evaluate.
-/

namespace Scraper

/-- Python `s.rstrip('/')` on the character list: drop every trailing `'/'`. -/
def rstripSlash (l : List Char) : List Char :=
  (l.reverse.dropWhile (fun c => c = '/')).reverse

/-- Python `s.split(c)[0]`: the longest prefix not containing the character `c`. -/
def takeBeforeChar (c : Char) (l : List Char) : List Char :=
  l.takeWhile (fun d => d ≠ c)

/-- Everything after the first (leftmost) occurrence of `sep` in `l`, or `none`
when `sep` does not occur.  Mirrors Python `l.split(sep)[1:]`'s starting point. -/
def afterFirst (sep : List Char) : List Char → Option (List Char)
  | [] => if sep.isEmpty then some [] else none
  | c :: rest =>
    if sep.isPrefixOf (c :: rest) then some ((c :: rest).drop sep.length)
    else afterFirst sep rest

/-- Everything before the first (leftmost) occurrence of `sep` in `l`
(the whole of `l` when `sep` does not occur). -/
def beforeFirst (sep : List Char) : List Char → List Char
  | [] => []
  | c :: rest =>
    if sep.isPrefixOf (c :: rest) then []
    else c :: beforeFirst sep rest

/-- Python `sep in s` (substring containment). -/
def containsSub (sep l : List Char) : Bool :=
  (afterFirst sep l).isSome

/-- Python `s.split(sep)[1]`: the segment between the first occurrence of `sep`
and the next non-overlapping occurrence after it. -/
def splitSecond (sep l : List Char) : Option (List Char) :=
  (afterFirst sep l).map (beforeFirst sep)

/-- Python `s.startswith(p)`. -/
def strStarts (p s : String) : Bool :=
  p.data.isPrefixOf s.data

/-- Python `s.lower()` (ASCII case fold, which is all the scraper relies on). -/
def lowerStr (s : String) : String :=
  ⟨s.data.map Char.toLower⟩

/-- Character class `[0-9]` of the regexes in `_is_valid_article_link`. -/
def isDigitCh (c : Char) : Bool :=
  decide ('0' ≤ c) && decide (c ≤ '9')

/-- Character class `[a-z0-9-]` of the regexes in `_is_valid_article_link`. -/
def isSlugChar (c : Char) : Bool :=
  (decide ('a' ≤ c) && decide (c ≤ 'z')) || isDigitCh c || decide (c = '-')

/-- Character class `[a-z0-9]` (final character of the slug regex). -/
def isSlugEndChar (c : Char) : Bool :=
  (decide ('a' ≤ c) && decide (c ≤ 'z')) || isDigitCh c

/-- Python `re.match(r'^issue-\d+$', s)`: literal `issue-` followed by one or
more digits, anchored at both ends. -/
def matchIssueNum (l : List Char) : Bool :=
  ("issue-".data.isPrefixOf l) &&
    (let rest := l.drop 6
     !rest.isEmpty && rest.all isDigitCh)

/-- Python `re.match(r'^issue-[ivx]+$', s)`. -/
def matchIssueRoman (l : List Char) : Bool :=
  ("issue-".data.isPrefixOf l) &&
    (let rest := l.drop 6
     !rest.isEmpty && rest.all (fun c => c = 'i' || c = 'v' || c = 'x'))

/-- Python `re.match(r'^[a-z0-9-]+[a-z0-9]$', s)`.  A string matches exactly
when it has length at least 2, every character is in `[a-z0-9-]`, and the last
character is in `[a-z0-9]` (the greedy `+` backtracks by one). -/
def matchSlug (l : List Char) : Bool :=
  match l.reverse with
  | [] => false
  | last :: init => !init.isEmpty && isSlugEndChar last && init.all isSlugChar

/-- Python `re.match(r'^[a-z0-9-]+$', s)`. -/
def matchSlugLoose (l : List Char) : Bool :=
  !l.isEmpty && l.all isSlugChar

/-- The default `base_url` of `LinkCollector.__init__`. -/
def defaultBaseUrl : String := "https://www.deeplearning.ai/the-batch/"

/-- The `invalid_patterns` list of `_is_valid_article_link`. -/
def invalidPatterns : List String :=
  ["tag/", "page/", "about", "category/", "search", "archive"]

/-- The `exclude_words` list of `_is_valid_article_link`. -/
def excludeWords : List String :=
  ["about", "contact", "archive", "search", "index"]

/-- `LinkCollector._is_valid_article_link` (LinkCollector.py lines 73-145),
parameterised by `self.base_url`. -/
def is_valid_article_link (base_url url : String) : Bool :=
  let clean_url := rstripSlash url.data
  let base_clean := rstripSlash base_url.data
  if clean_url = base_clean then false
  else if !containsSub "/the-batch/".data clean_url then false
  else
    match splitSecond "/the-batch/".data clean_url with
    | none => false
    | some batch_part =>
      if batch_part.length ≤ 1 then false
      else if invalidPatterns.any (fun p => p.data.isPrefixOf batch_part) then false
      else if matchIssueNum batch_part || matchIssueRoman batch_part ||
              matchSlug batch_part then true
      else if matchSlugLoose batch_part && decide (3 < batch_part.length) &&
              !excludeWords.any (fun w => w.data = batch_part) then true
      else false

/-- `LinkCollector._is_catalog_link` (LinkCollector.py lines 147-155). -/
def is_catalog_link (url : String) : Bool :=
  containsSub "/tag/".data url.data && !containsSub "/page/".data url.data

/-- The URL cleaning of `_extract_links_from_page` (LinkCollector.py line 385):
`href.split('?')[0].split('#')[0].rstrip('/')`.  This is also the `normalize`
function of the specification (strip query string, fragment, trailing slash). -/
def cleanUrl (s : String) : String :=
  ⟨rstripSlash (takeBeforeChar '#' (takeBeforeChar '?' s.data))⟩

/-- Python `s.rstrip('/')` at the `String` level. -/
def stripTrailingSlashes (s : String) : String :=
  ⟨rstripSlash s.data⟩

/-- Lexicographic comparison of character lists by code point: equal heads
recurse, the first differing position decides, and a proper prefix is smaller.
This is exactly Python's `str` ordering, used by `sorted`. -/
def lexLe : List Char → List Char → Bool
  | [], _ => true
  | _ :: _, [] => false
  | a :: as, b :: bs => if a = b then lexLe as bs else decide (a < b)

/-- Python `a <= b` on strings. -/
def strLeB (a b : String) : Bool :=
  lexLe a.data b.data

/-- Python `sorted` on a list of strings (lexicographic, code-point order). -/
def sortStrings (l : List String) : List String :=
  l.insertionSort (fun a b => strLeB a b = true)

/-!
Collector state and link categorization.  Python sets of strings are embedded
as duplicate-free lists; `set.add` becomes `List.insert` (prepend when absent),
which preserves exactly the membership behaviour the code relies on.
-/

/-- The three sets a `LinkCollector` instance mutates during a run
(`self.visited_pages`, `self.found_article_links`, `self.found_catalog_links`). -/
structure CState where
  visited_pages : List String
  found_article_links : List String
  found_catalog_links : List String
deriving DecidableEq

/-- One step of the loop body of `_categorize_links` (LinkCollector.py lines
390-409): classify a single link and add it to the matching set when new. -/
def categorizeOne (base : String) (s : CState) (link : String) : CState :=
  if is_valid_article_link base link then
    if link ∈ s.found_article_links then s
    else { s with found_article_links := link :: s.found_article_links }
  else if is_catalog_link link then
    if link ∈ s.found_catalog_links then s
    else { s with found_catalog_links := link :: s.found_catalog_links }
  else s

/-- `LinkCollector._categorize_links`: fold `categorizeOne` over the links of a
page (the `source` argument is only used for logging and is omitted). -/
def categorize_links (base : String) (s : CState) (links : List String) : CState :=
  links.foldl (categorizeOne base) s

/-- The article-set effect of `categorizeOne` in isolation: `_categorize_links`
touches `found_article_links` only as a function of the current article set. -/
def artsAdd (base : String) (arts : List String) (link : String) : List String :=
  if is_valid_article_link base link then
    if link ∈ arts then arts else link :: arts
  else arts

/-- The absolute-URL step of `_extract_links_from_page`: a site-relative
`href` (starting with `/`) is prefixed with the site origin. -/
def absUrl (href : String) : String :=
  if strStarts "/" href then "https://www.deeplearning.ai" ++ href else href

/-- One step of the loop of `_extract_links_from_page`: make a site-relative
`href` absolute, and when it is a The Batch link, clean it (query string,
fragment, trailing slash) and add it to the set. -/
def extractStep (links : List String) (href : String) : List String :=
  if containsSub "/the-batch/".data (absUrl href).data &&
     containsSub "deeplearning.ai".data (absUrl href).data then
    links.insert (cleanUrl (absUrl href))
  else links

/-- `LinkCollector._extract_links_from_page` (LinkCollector.py lines 368-388):
given the `href` attributes of the anchors on the page, fold `extractStep`
over them starting from the empty set. -/
def extract_links_from_page (hrefs : List String) : List String :=
  hrefs.foldl extractStep []

/-!
The pagination loops.  `_explore_main_pages_with_pagination` (lines 219-287)
and `_explore_catalog_with_pagination` (lines 301-366) are the same loop up to
the construction of the page URL, so the loop is embedded once, parameterised
by `urlOf : Nat → String`.  The environment is a function
`fetch : Nat → Option (List String)` giving, for each page number, the links
extracted from that page, or `none` when `page.goto` fails, the page is a 404,
or the selector wait times out (all of which break the loop in the code).
-/

/-- Result of one iteration of the pagination loop body. -/
inductive PageOutcome where
  | skip : PageOutcome
  | fail : PageOutcome
  | emptyStop : CState → PageOutcome
  | cont : CState → Nat → PageOutcome
deriving DecidableEq

/-- One iteration of the `while current_page <= max_pages` body: skip (break)
when the page URL was already visited, break on fetch failure, otherwise
categorize the page's links, and either stop after the third consecutive page
with no new articles (the `articles_found == 0` test is the Python
`after_count - before_count == 0` on the article-set sizes), or record the
page as visited and continue. -/
def processPage (fetch : Nat → Option (List String)) (urlOf : Nat → String)
    (base : String) (cur cnt : Nat) (s : CState) : PageOutcome :=
  if urlOf cur ∈ s.visited_pages then .skip
  else
    match fetch cur with
    | none => .fail
    | some links =>
      if (categorize_links base s links).found_article_links.length -
           s.found_article_links.length = 0 then
        if 3 ≤ cnt + 1 then .emptyStop (categorize_links base s links)
        else
          .cont { categorize_links base s links with
                  visited_pages :=
                    (categorize_links base s links).visited_pages.insert (urlOf cur) }
            (cnt + 1)
      else
        .cont { categorize_links base s links with
                visited_pages :=
                  (categorize_links base s links).visited_pages.insert (urlOf cur) } 0

/-- The pagination loop.  `fuel` is `max_pages - current_page + 1`, so the
loop condition `current_page <= max_pages` becomes `fuel > 0`.  The second
component counts the iterations that reached `page.goto` (page fetches). -/
def exploreLoop (fetch : Nat → Option (List String)) (urlOf : Nat → String)
    (base : String) : Nat → Nat → Nat → CState → CState × Nat
  | 0, _, _, s => (s, 0)
  | fuel + 1, cur, cnt, s =>
    match processPage fetch urlOf base cur cnt s with
    | .skip => (s, 0)
    | .fail => (s, 1)
    | .emptyStop s1 => (s1, 1)
    | .cont s2 cnt2 =>
      let r := exploreLoop fetch urlOf base fuel (cur + 1) cnt2 s2
      (r.1, r.2 + 1)

/-- Page-URL construction of `_explore_main_pages_with_pagination`: page 1 is
`base_url` itself, page n is `base_url.rstrip('/') + '/page/n/'`. -/
def mainPageUrl (base : String) (cur : Nat) : String :=
  if cur = 1 then base
  else stripTrailingSlashes base ++ "/page/" ++ toString cur ++ "/"

/-- `LinkCollector._explore_main_pages_with_pagination` as a function of the
fetch environment: run the loop from page 1 with empty consecutive-empty
counter. -/
def explore_main_pages_with_pagination (fetch : Nat → Option (List String))
    (base : String) (maxPages : Nat) (s : CState) : CState × Nat :=
  exploreLoop fetch (mainPageUrl base) base maxPages 1 0 s

/-- Page-URL construction of `_explore_catalog_with_pagination`: page 1 is the
catalog URL itself, page n is `catalog_url.rstrip('/') + '/page/n/'`. -/
def catalogPageUrl (catalog : String) (cur : Nat) : String :=
  if cur = 1 then catalog
  else stripTrailingSlashes catalog ++ "/page/" ++ toString cur ++ "/"

/-- `LinkCollector._explore_catalog_with_pagination` as a function of the
fetch environment. -/
def explore_catalog_with_pagination (fetch : Nat → Option (List String))
    (base catalog : String) (maxPages : Nat) (s : CState) : CState × Nat :=
  exploreLoop fetch (catalogPageUrl catalog) base maxPages 1 0 s

/-!
Cache merge (`update_cache`, LinkCollector.py lines 415-420).  Python sets are
embedded as `Finset String` here, since only set-algebraic facts are claimed.
-/

/-- The merge performed by `update_cache`:
`self.cached_links.union(self.found_article_links)`. -/
def merge (existing found : Finset String) : Finset String :=
  existing ∪ found

/-- `LinkCollector.update_cache`: when saving is enabled and some article was
found, the cache becomes the union of the old cache and the found links. -/
def update_cache (cached found : Finset String) (save_to_cache : Bool) : Finset String :=
  if save_to_cache = true ∧ found.Nonempty then merge cached found else cached

/-!
The persisted cache file (`_save_links_to_cache`, lines 50-71, and
`_load_cached_links`, lines 38-48).  JSON values are embedded by an inductive
covering the shapes the cache schema uses (strings, numbers, arrays of
strings, objects); any other shape only matters as "malformed".
-/

/-- JSON values as used by the cache file. -/
inductive JVal where
  | jstr : String → JVal
  | jnum : Nat → JVal
  | jstrArr : List String → JVal
  | jobj : List (String × JVal) → JVal

/-- Key lookup in a JSON object (Python `dict` access / `dict.get`). -/
def jlookup (key : String) : List (String × JVal) → Option JVal
  | [] => none
  | (k, v) :: rest => if k = key then some v else jlookup key rest

/-- The `cache_data` dictionary built by `_save_links_to_cache` (lines 56-64):
`links` is `sorted(list(links))`, `total_count` is `len(links)`, and
`collection_stats` holds `len(self.visited_pages)` under `visited_pages` and
`len(self.found_catalog_links)` under `catalog_pages_explored`.  The set of
links is passed as a duplicate-free list. -/
def save_links_cache_data (links : List String) (now : String)
    (visitedCount catalogsCount : Nat) : JVal :=
  .jobj [("links", .jstrArr (sortStrings links)),
         ("last_updated", .jstr now),
         ("total_count", .jnum links.length),
         ("collection_stats",
           .jobj [("visited_pages", .jnum visitedCount),
                  ("catalog_pages_explored", .jnum catalogsCount)])]

/-- Whether the `collection_stats` object written by `_save_links_to_cache`
contains a given key. -/
def cacheStatsHasKey (links : List String) (now : String)
    (visitedCount catalogsCount : Nat) (key : String) : Bool :=
  match save_links_cache_data links now visitedCount catalogsCount with
  | .jobj fields =>
    match jlookup "collection_stats" fields with
    | some (.jobj stats) => (jlookup key stats).isSome
    | _ => false
  | _ => false

/-- A one-character Python string, as produced by iterating over a `str`. -/
def charToStr (c : Char) : String :=
  ⟨[c]⟩

/-- The extraction `set(data.get('links', []))` of `_load_cached_links`.
`none` models exactly the paths where the Python expression raises:
* `data` is not a dict (a string, number or array): `data.get` raises
  `AttributeError`;
* the `links` field is a number: `set(n)` raises `TypeError`.
A `some` result is the resulting set, as the list of its distinct members:
* `links` absent: `data.get('links', [])` is `[]` and `set([])` is empty;
* `links` a JSON array of strings: `set(list)` is the set of its elements;
* `links` a string: `set(str)` SUCCEEDS in Python and is the set of its
  characters (one-character strings) — no exception, no `logger.error`;
* `links` an object: `set(dict)` SUCCEEDS and is the set of its keys. -/
def linksOf : JVal → Option (List String)
  | .jobj fields =>
    match jlookup "links" fields with
    | none => some []
    | some (.jstrArr xs) => some xs.dedup
    | some (.jstr s) => some ((s.data.map charToStr).dedup)
    | some (.jobj inner) => some ((inner.map Prod.fst).dedup)
    | some (.jnum _) => none
  | _ => none

/-- `LinkCollector._load_cached_links`.  The file-system input is
`none` (file does not exist), `some none` (the file exists but `open` or
`json.load` raises: unreadable or malformed JSON), or `some (some j)` (the
file parses to the JSON value `j`).  The boolean records whether
`logger.error` ran; the function is total, so no exception escapes. -/
def load_cached_links (file : Option (Option JVal)) : List String × Bool :=
  match file with
  | none => ([], false)
  | some none => ([], true)
  | some (some j) =>
    match linksOf j with
    | some ls => (ls, false)
    | none => ([], true)

/-!
File-system effect of `_save_links_to_cache`.  The code writes with
`open(self.cache_file, 'w')`, which truncates the file at open, then streams
`json.dump` into it; the whole body is wrapped in `try/except` that logs and
swallows any exception.  The model makes the failure point explicit: a failure
at `open` leaves the file untouched, a failure after `open` leaves the
truncated prefix of `k` characters written so far.
-/

/-- Where a failure strikes during `_save_links_to_cache`. -/
inductive SaveFailure where
  | atOpen : SaveFailure
  | duringWrite : Nat → SaveFailure
deriving DecidableEq

/-- Python `s[:k]` on the serialized content. -/
def strTake (s : String) (k : Nat) : String :=
  ⟨s.data.take k⟩

/-- The file-system effect of `_save_links_to_cache`: `prev` is the previous
content of the cache file (`none` when absent), `content` the new
serialization; the result is the file content afterwards, paired with whether
`logger.error` ran.  No exception propagates (the function is total). -/
def save_links_to_cache_fs (prev : Option String) (content : String) :
    Option SaveFailure → Option String × Bool
  | none => (some content, false)
  | some .atOpen => (prev, true)
  | some (.duringWrite k) => (some (strTake content k), true)

/-!
`BatchScraper._extract_images` (BatchScraper.py lines 224-264).  The parsed
page is abstracted to exactly the data the function reads: the content of the
`og:image` and `og:description` meta tags (absent tag or absent `content`
attribute collapse to `none`; Python's truthiness test also skips the empty
string), and the `<img>` tags of the `prose--styled` div (`none` when that div
is missing).
-/

/-- An `<img>` tag: its `src` attribute (`none` when absent) and its `alt`
attribute (`img.get('alt', '')` defaults to the empty string). -/
structure ImgTag where
  src : Option String
  alt : String
deriving DecidableEq

/-- The words filtered out of image sources:
`['icon', 'logo', 'avatar', 'emoji']`. -/
def imgSkipWords : List String :=
  ["icon", "logo", "avatar", "emoji"]

/-- The loop body over `content_div.find_all('img')`: skip missing/empty
`src`, skip icon-like sources, make the URL absolute, and append the source
and its `alt` text unless the source is already present. -/
def addContentImg (acc : List String × List String) (img : ImgTag) :
    List String × List String :=
  match img.src with
  | none => acc
  | some src =>
    if src.data.isEmpty then acc
    else if imgSkipWords.any (fun w => containsSub w.data (lowerStr src).data) then acc
    else
      let abs := if strStarts "/" src then "https://www.deeplearning.ai" ++ src else src
      if abs ∈ acc.1 then acc
      else (acc.1 ++ [abs], acc.2 ++ [img.alt])

/-- `BatchScraper._extract_images`: the `og:image` pair first (with
`og:description` as its description, defaulting to `""`), then the content
images. -/
def extract_images (ogImage ogDesc : Option String)
    (contentImgs : Option (List ImgTag)) : List String × List String :=
  let start : List String × List String :=
    match ogImage with
    | none => ([], [])
    | some c =>
      if c.data.isEmpty then ([], [])
      else
        ([c], [match ogDesc with
               | some d => if d.data.isEmpty then "" else d
               | none => ""])
  match contentImgs with
  | none => start
  | some imgs => imgs.foldl addContentImg start

/-!
Link selection in `BatchScraper.scrape_articles` (lines 43-75): every branch
computes `self.link_collector.get_links_list(...)[:max_articles]`, where
`max_articles` comes from the CLI and defaults to `-1` (scraper.py lines
20-25).
-/

/-- Python `xs[:stop]` for an `int` stop: non-negative stops take a prefix,
negative stops drop `|stop|` elements from the end (clamped at the empty
list). -/
def pySliceTo (xs : List String) (stop : Int) : List String :=
  if 0 ≤ stop then xs.take stop.toNat
  else xs.take (xs.length - (-stop).toNat)

/-- `LinkCollector.get_links_list` (lines 432-445): the sorted union of found
and cached links, or the sorted difference (`get_new_links`) when `new_only`. -/
def get_links_list (found cached : List String) (new_only : Bool) : List String :=
  if new_only then
    sortStrings (found.filter (fun u => u ∉ cached))
  else
    sortStrings (found.union cached)

/-- The `links_to_scrape` computed by `scrape_articles`:
`get_links_list(new_only)[:max_articles]`. -/
def links_to_scrape (found cached : List String) (new_only : Bool)
    (max_articles : Int) : List String :=
  pySliceTo (get_links_list found cached new_only) max_articles

end Scraper

namespace Scraper

/-!
General lemmas about the string helpers.
-/

theorem dropWhile_dropWhile (p : Char → Bool) (l : List Char) :
    (l.dropWhile p).dropWhile p = l.dropWhile p := by
  induction l with
  | nil => rfl
  | cons a t ih =>
    by_cases h : p a = true
    · simp [List.dropWhile_cons, h, ih]
    · simp [List.dropWhile_cons, h]

theorem rstripSlash_idem (l : List Char) :
    rstripSlash (rstripSlash l) = rstripSlash l := by
  unfold rstripSlash
  rw [List.reverse_reverse, dropWhile_dropWhile]

theorem mem_rstripSlash (l : List Char) (x : Char) (h : x ∈ rstripSlash l) : x ∈ l := by
  unfold rstripSlash at h
  rw [List.mem_reverse] at h
  have := (List.dropWhile_sublist (l := l.reverse) (p := fun c => c = '/')).subset h
  simpa using this

theorem mem_takeBeforeChar (c : Char) (l : List Char) (x : Char)
    (h : x ∈ takeBeforeChar c l) : x ∈ l ∧ x ≠ c := by
  unfold takeBeforeChar at h
  refine ⟨(List.takeWhile_sublist _).subset h, ?_⟩
  have := List.mem_takeWhile_imp h
  simpa using this

theorem takeBeforeChar_eq_self (c : Char) (l : List Char) (h : ∀ x ∈ l, x ≠ c) :
    takeBeforeChar c l = l := by
  induction l with
  | nil => rfl
  | cons a t ih =>
    have ha : a ≠ c := h a (List.mem_cons_self a t)
    have ht := ih (fun x hx => h x (List.mem_cons_of_mem a hx))
    unfold takeBeforeChar at ht ⊢
    rw [List.takeWhile_cons]
    simp [ha, ht]
    exact fun x hx => h x (List.mem_cons_of_mem a hx)

theorem cleanUrl_idem (s : String) : cleanUrl (cleanUrl s) = cleanUrl s := by
  unfold cleanUrl
  have hdata : (⟨rstripSlash (takeBeforeChar '#' (takeBeforeChar '?' s.data))⟩ : String).data
      = rstripSlash (takeBeforeChar '#' (takeBeforeChar '?' s.data)) := rfl
  rw [hdata]
  have hq : takeBeforeChar '?'
      (rstripSlash (takeBeforeChar '#' (takeBeforeChar '?' s.data))) =
      rstripSlash (takeBeforeChar '#' (takeBeforeChar '?' s.data)) := by
    apply takeBeforeChar_eq_self
    intro x hx
    have hx2 := mem_rstripSlash _ _ hx
    have hx3 := mem_takeBeforeChar '#' _ _ hx2
    exact (mem_takeBeforeChar '?' _ _ hx3.1).2
  rw [hq]
  have hh : takeBeforeChar '#'
      (rstripSlash (takeBeforeChar '#' (takeBeforeChar '?' s.data))) =
      rstripSlash (takeBeforeChar '#' (takeBeforeChar '?' s.data)) := by
    apply takeBeforeChar_eq_self
    intro x hx
    have hx2 := mem_rstripSlash _ _ hx
    exact (mem_takeBeforeChar '#' _ _ hx2).2
  rw [hh, rstripSlash_idem]

/-!
Claim C1.
-/

/-- Claim C1 (counterexample): classification is NOT invariant under the
spec's `normalize` (strip trailing slash, query string, fragment).  The URL
`https://www.deeplearning.ai/the-batch/issue-290?ref=home` is rejected by
`_is_valid_article_link`, but its normalized form
`https://www.deeplearning.ai/the-batch/issue-290` is accepted. -/
theorem C1_counterexample :
    is_valid_article_link defaultBaseUrl
      "https://www.deeplearning.ai/the-batch/issue-290?ref=home" = false ∧
    cleanUrl "https://www.deeplearning.ai/the-batch/issue-290?ref=home" =
      "https://www.deeplearning.ai/the-batch/issue-290" ∧
    is_valid_article_link defaultBaseUrl
      "https://www.deeplearning.ai/the-batch/issue-290" = true := by
  decide

/-- Claim C1 (amended): for every base URL and every URL `u`, article
classification is invariant under stripping trailing slashes
(`_is_valid_article_link(u) = _is_valid_article_link(u.rstrip('/'))`), but not
under stripping the query string or fragment. -/
theorem C1_classification_slash_invariant (base u : String) :
    is_valid_article_link base (stripTrailingSlashes u) =
      is_valid_article_link base u := by
  show is_valid_article_link base ⟨rstripSlash u.data⟩ = is_valid_article_link base u
  unfold is_valid_article_link
  rw [show (⟨rstripSlash u.data⟩ : String).data = rstripSlash u.data from rfl,
    rstripSlash_idem]

/-- Claim C1 witness: the amended theorem applied at the default base URL and
a URL with a trailing slash. -/
theorem C1_classification_slash_invariant_witness :
    is_valid_article_link defaultBaseUrl
      (stripTrailingSlashes "https://www.deeplearning.ai/the-batch/issue-290/") =
    is_valid_article_link defaultBaseUrl
      "https://www.deeplearning.ai/the-batch/issue-290/" :=
  C1_classification_slash_invariant defaultBaseUrl
    "https://www.deeplearning.ai/the-batch/issue-290/"

/-!
Claim C6.
-/

/-- Claim C6: under the default base URL, the slugs `issue-290`, `issue-i` and
`how-to-liberate-data` classify as articles; `tag/letters`, `page/2`, `about`
and the base URL itself are rejected; and the `tag/letters` URL is a catalog
link. -/
theorem C6_classification_examples :
    is_valid_article_link defaultBaseUrl
      "https://www.deeplearning.ai/the-batch/issue-290/" = true ∧
    is_valid_article_link defaultBaseUrl
      "https://www.deeplearning.ai/the-batch/issue-i/" = true ∧
    is_valid_article_link defaultBaseUrl
      "https://www.deeplearning.ai/the-batch/how-to-liberate-data/" = true ∧
    is_valid_article_link defaultBaseUrl
      "https://www.deeplearning.ai/the-batch/tag/letters/" = false ∧
    is_valid_article_link defaultBaseUrl
      "https://www.deeplearning.ai/the-batch/page/2/" = false ∧
    is_valid_article_link defaultBaseUrl
      "https://www.deeplearning.ai/the-batch/about/" = false ∧
    is_valid_article_link defaultBaseUrl
      "https://www.deeplearning.ai/the-batch/" = false ∧
    is_catalog_link "https://www.deeplearning.ai/the-batch/tag/letters/" = true := by
  decide

/-!
Claim C7.
-/

/-- Claim C7: the cache merge of `update_cache` is set union and is
idempotent: `merge(A, merge(A, B)) = merge(A, B)`, and merging the same found
set twice yields the same result as merging it once. -/
theorem C7_merge_idempotent (A B : Finset String) :
    merge A B = A ∪ B ∧
    merge A (merge A B) = merge A B ∧
    merge (merge A B) B = merge A B := by
  refine ⟨rfl, ?_, ?_⟩
  · show A ∪ (A ∪ B) = A ∪ B
    rw [← Finset.union_assoc, Finset.union_self]
  · show (A ∪ B) ∪ B = A ∪ B
    rw [Finset.union_assoc, Finset.union_self]

/-!
Claim C4.
-/

/-- Claim C4 (counterexample): saving is NOT atomic from the caller's
perspective.  With a previously persisted file `OLD`, a failure that strikes
after `open(self.cache_file, 'w')` has truncated the file and before any of
the new content `NEW` is written leaves the file empty: the previously
persisted content is lost, even though the failure is logged. -/
theorem C4_counterexample :
    (save_links_to_cache_fs (some "OLD") "NEW" (some (.duringWrite 0))).1 ≠ some "OLD" ∧
    (save_links_to_cache_fs (some "OLD") "NEW" (some (.duringWrite 0))).2 = true := by
  decide

/-- Claim C4 (amended): failures during `_save_links_to_cache` are logged and
never propagate, and a successful save replaces the whole file with the new
content; but the write is not atomic: `open(..., 'w')` truncates the file
first, so a failure during the dump leaves only the prefix written so far
(only a failure at `open` itself leaves the previous file intact). -/
theorem C4_save_error_handling :
    (∀ prev content, save_links_to_cache_fs prev content none = (some content, false)) ∧
    (∀ prev content f, (save_links_to_cache_fs prev content (some f)).2 = true) ∧
    (∀ prev content, (save_links_to_cache_fs prev content (some .atOpen)).1 = prev) ∧
    (∀ prev content k,
      (save_links_to_cache_fs prev content (some (.duringWrite k))).1 =
        some (strTake content k)) := by
  refine ⟨fun _ _ => rfl, fun _ _ f => ?_, fun _ _ => rfl, fun _ _ _ => rfl⟩
  cases f <;> rfl

/-!
Claim C9.
-/

/-- Claim C9 (counterexample): NOT every existing-but-malformed cache file is
logged and mapped to the empty set.  For the malformed cache
`{"links": "abc"}` (a string where the list of URLs belongs), Python's
`set("abc")` succeeds, so `_load_cached_links` silently returns the non-empty
set of its characters and `logger.error` never runs. -/
theorem C9_counterexample :
    (load_cached_links (some (some (.jobj [("links", .jstr "abc")])))).2 = false ∧
    "a" ∈ (load_cached_links (some (some (.jobj [("links", .jstr "abc")])))).1 := by
  decide

/-- Claim C9 (amended): loading the link cache never raises past its boundary
(the embedded function is total): a missing file yields the empty set; a file
whose read, JSON parse or links extraction raises — unreadable, invalid JSON,
a top-level value that is not an object, or a `links` field that is a number —
is logged and yields the empty set.  But a malformed cache whose `links`
field is iterable is silently accepted with no log: a string yields the set
of its characters and an object yields the set of its keys. -/
theorem C9_load_never_raises :
    load_cached_links none = ([], false) ∧
    load_cached_links (some none) = ([], true) ∧
    (∀ j, linksOf j = none → load_cached_links (some (some j)) = ([], true)) ∧
    (∀ s fields, jlookup "links" fields = some (.jstr s) →
      (load_cached_links (some (some (.jobj fields)))).2 = false ∧
      (∀ u, u ∈ (load_cached_links (some (some (.jobj fields)))).1 ↔
        ∃ c ∈ s.data, charToStr c = u)) ∧
    (∀ inner fields, jlookup "links" fields = some (.jobj inner) →
      (load_cached_links (some (some (.jobj fields)))).2 = false ∧
      (∀ u, u ∈ (load_cached_links (some (some (.jobj fields)))).1 ↔
        ∃ p ∈ inner, p.1 = u)) := by
  refine ⟨rfl, rfl, fun j h => ?_, fun s fields h => ?_, fun inner fields h => ?_⟩
  · show (match linksOf j with
          | some ls => (ls, false)
          | none => ([], true)) = (([] : List String), true)
    rw [h]
  · have hl : linksOf (.jobj fields) = some ((s.data.map charToStr).dedup) := by
      simp only [linksOf, h]
    have hload : load_cached_links (some (some (.jobj fields))) =
        ((s.data.map charToStr).dedup, false) := by
      show (match linksOf (.jobj fields) with
            | some ls => (ls, false)
            | none => ([], true)) = ((s.data.map charToStr).dedup, false)
      rw [hl]
    rw [hload]
    exact ⟨rfl, fun u => by simp [List.mem_dedup, List.mem_map]⟩
  · have hl : linksOf (.jobj fields) = some ((inner.map Prod.fst).dedup) := by
      simp only [linksOf, h]
    have hload : load_cached_links (some (some (.jobj fields))) =
        ((inner.map Prod.fst).dedup, false) := by
      show (match linksOf (.jobj fields) with
            | some ls => (ls, false)
            | none => ([], true)) = ((inner.map Prod.fst).dedup, false)
      rw [hl]
    rw [hload]
    exact ⟨rfl, fun u => by simp [List.mem_dedup, List.mem_map]⟩

/-- Claim C9 witness: the amended theorem applied to concrete cache files: a
top-level JSON number (extraction raises, logged, empty set), a `links` field
holding the string `ab` (silently accepted as its characters), and a `links`
field holding an object (silently accepted as its keys). -/
theorem C9_load_never_raises_witness :
    load_cached_links (some (some (.jnum 0))) = ([], true) ∧
    (load_cached_links (some (some (.jobj [("links", .jstr "ab")])))).2 = false ∧
    ("a" ∈ (load_cached_links (some (some (.jobj [("links", .jstr "ab")])))).1 ↔
      ∃ c ∈ "ab".data, charToStr c = "a") ∧
    (load_cached_links
      (some (some (.jobj [("links", .jobj [("k", .jnum 1)])])))).2 = false :=
  ⟨C9_load_never_raises.2.2.1 (.jnum 0) rfl,
   (C9_load_never_raises.2.2.2.1 "ab" [("links", .jstr "ab")] rfl).1,
   (C9_load_never_raises.2.2.2.1 "ab" [("links", .jstr "ab")] rfl).2 "a",
   (C9_load_never_raises.2.2.2.2 [("k", .jnum 1)]
     [("links", .jobj [("k", .jnum 1)])] rfl).1⟩

/-!
Claim C8.
-/

theorem addContentImg_preserves_len (acc : List String × List String)
    (img : ImgTag) (h : acc.1.length = acc.2.length) :
    (addContentImg acc img).1.length = (addContentImg acc img).2.length := by
  unfold addContentImg
  cases img.src with
  | none => exact h
  | some src =>
    by_cases h1 : src.data.isEmpty = true
    · simp [h1, h]
    · simp only [h1, if_false]
      by_cases h2 : imgSkipWords.any
          (fun w => containsSub w.data (lowerStr src).data) = true
      · simp [h2, h]
      · simp only [h2, if_false]
        by_cases h3 : (if strStarts "/" src = true then
            "https://www.deeplearning.ai" ++ src else src) ∈ acc.1
        · simp [h3, h]
        · simp [h3, h]

theorem foldl_addContentImg_len (imgs : List ImgTag)
    (acc : List String × List String) (h : acc.1.length = acc.2.length) :
    (imgs.foldl addContentImg acc).1.length =
      (imgs.foldl addContentImg acc).2.length := by
  induction imgs generalizing acc with
  | nil => exact h
  | cons img rest ih =>
    exact ih (addContentImg acc img) (addContentImg_preserves_len acc img h)

/-- Claim C8: for every parsed document, `_extract_images` returns parallel
media arrays: the images list and the image-descriptions list have equal
length (every append to one is paired with an append to the other). -/
theorem C8_images_parallel (ogImage ogDesc : Option String)
    (contentImgs : Option (List ImgTag)) :
    (extract_images ogImage ogDesc contentImgs).1.length =
      (extract_images ogImage ogDesc contentImgs).2.length := by
  unfold extract_images
  have hstart : ∀ start : List String × List String,
      start.1.length = start.2.length →
      (match contentImgs with
        | none => start
        | some imgs => imgs.foldl addContentImg start).1.length =
      (match contentImgs with
        | none => start
        | some imgs => imgs.foldl addContentImg start).2.length := by
    intro start h
    cases contentImgs with
    | none => exact h
    | some imgs => exact foldl_addContentImg_len imgs start h
  apply hstart
  cases ogImage with
  | none => rfl
  | some c =>
    by_cases hc : c.data.isEmpty = true
    · simp [hc]
    · simp [hc]

/-!
The lexicographic order `lexLe` is total and transitive, so Mathlib's
insertion-sort lemmas apply to `sortStrings`.
-/

theorem lexLe_total (a b : List Char) : lexLe a b = true ∨ lexLe b a = true := by
  induction a generalizing b with
  | nil => exact Or.inl rfl
  | cons x xs ih =>
    cases b with
    | nil => exact Or.inr rfl
    | cons y ys =>
      by_cases hxy : x = y
      · subst hxy
        rcases ih ys with h | h
        · exact Or.inl (by simp [lexLe, h])
        · exact Or.inr (by simp [lexLe, h])
      · rcases lt_or_gt_of_ne hxy with h | h
        · exact Or.inl (by simp [lexLe, hxy, h])
        · exact Or.inr (by simp [lexLe, Ne.symm hxy, h])

theorem lexLe_trans (a b c : List Char) (hab : lexLe a b = true)
    (hbc : lexLe b c = true) : lexLe a c = true := by
  induction a generalizing b c with
  | nil => rfl
  | cons x xs ih =>
    cases b with
    | nil => simp [lexLe] at hab
    | cons y ys =>
      cases c with
      | nil => simp [lexLe] at hbc
      | cons z zs =>
        by_cases hxy : x = y
        · subst hxy
          by_cases hyz : x = z
          · subst hyz
            simp only [lexLe, if_pos rfl] at hab hbc ⊢
            exact ih ys zs hab hbc
          · simp only [lexLe, if_pos rfl] at hab
            simp only [lexLe, if_neg hyz] at hbc ⊢
            exact hbc
        · by_cases hyz : y = z
          · subst hyz
            simp only [lexLe, if_neg hxy] at hab ⊢
            exact hab
          · simp only [lexLe, if_neg hxy] at hab
            simp only [lexLe, if_neg hyz] at hbc
            have hxz : x < z := lt_trans (of_decide_eq_true hab) (of_decide_eq_true hbc)
            have hne : x ≠ z := ne_of_lt hxz
            simp [lexLe, hne, hxz]

theorem strLeB_total (a b : String) : strLeB a b = true ∨ strLeB b a = true :=
  lexLe_total a.data b.data

theorem strLeB_trans (a b c : String) (hab : strLeB a b = true)
    (hbc : strLeB b c = true) : strLeB a c = true :=
  lexLe_trans a.data b.data c.data hab hbc

theorem sortStrings_sorted (l : List String) :
    (sortStrings l).Sorted (fun a b => strLeB a b = true) := by
  haveI : IsTotal String (fun a b => strLeB a b = true) := ⟨strLeB_total⟩
  haveI : IsTrans String (fun a b => strLeB a b = true) := ⟨strLeB_trans⟩
  exact List.sorted_insertionSort _ l

theorem sortStrings_perm (l : List String) : List.Perm (sortStrings l) l :=
  List.perm_insertionSort _ l

/-!
Claim C3.
-/

/-- Claim C3 (counterexample): the `collection_stats` object written by
`_save_links_to_cache` does NOT contain the key `catalogs_found`; the catalog
count is stored under `catalog_pages_explored` instead. -/
theorem C3_counterexample :
    cacheStatsHasKey ["a"] "t" 2 1 "catalogs_found" = false ∧
    cacheStatsHasKey ["a"] "t" 2 1 "catalog_pages_explored" = true := by
  decide

/-- Claim C3 (amended): every save of the link cache writes a JSON object
whose `links` field is the lexicographically sorted list of the given links,
whose `total_count` equals the number of links, and whose `collection_stats`
object contains the keys `visited_pages` and `catalog_pages_explored` (not
`catalogs_found`) holding the run's visited-page count and the number of
catalog links found. -/
theorem C3_cache_format (links : List String) (now : String)
    (visitedCount catalogsCount : Nat) :
    ∃ fields, save_links_cache_data links now visitedCount catalogsCount = .jobj fields ∧
      jlookup "links" fields = some (.jstrArr (sortStrings links)) ∧
      (sortStrings links).Sorted (fun a b => strLeB a b = true) ∧
      List.Perm (sortStrings links) links ∧
      jlookup "total_count" fields = some (.jnum links.length) ∧
      jlookup "collection_stats" fields =
        some (.jobj [("visited_pages", .jnum visitedCount),
                     ("catalog_pages_explored", .jnum catalogsCount)]) :=
  ⟨_, rfl, rfl, sortStrings_sorted links, sortStrings_perm links, rfl, rfl⟩

/-!
Claim C10.
-/

theorem pySliceTo_neg_one (xs : List String) : pySliceTo xs (-1) = xs.dropLast := by
  unfold pySliceTo
  rw [if_neg (by norm_num)]
  rw [List.dropLast_eq_take]
  rfl

theorem sortStrings_nodup (l : List String) (h : l.Nodup) : (sortStrings l).Nodup :=
  (List.Perm.nodup_iff (sortStrings_perm l)).mpr h

/-- Claim C10: when `scrape_articles` runs with `max_articles = -1` (the CLI
default documented as no limit), the selected links are the sorted link list
with its final element removed (`[:-1]`): for a one-element list nothing is
scraped, and the lexicographically last link is always excluded. -/
theorem C10_default_drops_last (found cached : List String) (new_only : Bool) :
    links_to_scrape found cached new_only (-1) =
      (get_links_list found cached new_only).dropLast ∧
    ((get_links_list found cached new_only).length = 1 →
      links_to_scrape found cached new_only (-1) = []) ∧
    (found.Nodup → cached.Nodup → ∀ x,
      (get_links_list found cached new_only).getLast? = some x →
      x ∉ links_to_scrape found cached new_only (-1)) := by
  refine ⟨pySliceTo_neg_one _, fun hlen => ?_, fun hf hc x hx => ?_⟩
  · unfold links_to_scrape
    rw [pySliceTo_neg_one]
    cases hL : get_links_list found cached new_only with
    | nil => rfl
    | cons a t =>
      rw [hL] at hlen
      simp at hlen
      rw [hlen]
      rfl
  · unfold links_to_scrape
    rw [pySliceTo_neg_one]
    have hnd : (get_links_list found cached new_only).Nodup := by
      unfold get_links_list
      cases new_only
      · simp only [Bool.false_eq_true, if_false]
        exact sortStrings_nodup _ (List.Nodup.union found hc)
      · simp only [if_true]
        exact sortStrings_nodup _ (List.Nodup.filter _ hf)
    have happ := List.dropLast_append_getLast? x hx
    rw [← happ] at hnd
    have hdisj := List.disjoint_of_nodup_append hnd
    intro hmem
    exact hdisj hmem (List.mem_singleton_self x)

/-- Claim C10 witness: the theorem applied to concrete link sets.  On
`{"b", "a"} ∪ {"c"}` the sorted list is `["a", "b", "c"]` and the
lexicographically last link `"c"` is excluded; on the one-element list
`["a"]` nothing is selected. -/
theorem C10_default_drops_last_witness :
    links_to_scrape ["a"] [] false (-1) = [] ∧
    "c" ∉ links_to_scrape ["b", "a"] ["c"] false (-1) :=
  ⟨(C10_default_drops_last ["a"] [] false).2.1 (by decide),
   (C10_default_drops_last ["b", "a"] ["c"] false).2.2 (by decide) (by decide) "c"
     (by decide)⟩

/-!
Claim C5.
-/

theorem extractStep_clean (links : List String) (href : String)
    (h : ∀ u ∈ links, cleanUrl u = u) :
    ∀ u ∈ extractStep links href, cleanUrl u = u := by
  intro u hu
  unfold extractStep at hu
  split at hu
  · rcases List.mem_insert_iff.mp hu with h1 | h1
    · rw [h1, cleanUrl_idem]
    · exact h u h1
  · exact h u hu

theorem foldl_extractStep_clean (hrefs : List String) (acc : List String)
    (h : ∀ u ∈ acc, cleanUrl u = u) :
    ∀ u ∈ hrefs.foldl extractStep acc, cleanUrl u = u := by
  induction hrefs generalizing acc with
  | nil => exact h
  | cons a t ih => exact ih _ (extractStep_clean acc a h)

theorem categorizeOne_arts_mem (base : String) (s : CState) (link u : String)
    (h : u ∈ (categorizeOne base s link).found_article_links) :
    u ∈ s.found_article_links ∨ u = link := by
  unfold categorizeOne at h
  split at h
  · split at h
    · exact Or.inl h
    · rcases List.mem_cons.mp h with h1 | h1
      · exact Or.inr h1
      · exact Or.inl h1
  · split at h
    · split at h
      · exact Or.inl h
      · exact Or.inl h
    · exact Or.inl h

theorem categorizeOne_cats_mem (base : String) (s : CState) (link u : String)
    (h : u ∈ (categorizeOne base s link).found_catalog_links) :
    u ∈ s.found_catalog_links ∨ u = link := by
  unfold categorizeOne at h
  split at h
  · split at h
    · exact Or.inl h
    · exact Or.inl h
  · split at h
    · split at h
      · exact Or.inl h
      · rcases List.mem_cons.mp h with h1 | h1
        · exact Or.inr h1
        · exact Or.inl h1
    · exact Or.inl h

theorem categorize_links_arts_mem (base : String) (links : List String)
    (s : CState) (u : String)
    (h : u ∈ (categorize_links base s links).found_article_links) :
    u ∈ s.found_article_links ∨ u ∈ links := by
  induction links generalizing s with
  | nil => exact Or.inl h
  | cons a t ih =>
    rcases ih (categorizeOne base s a) h with h1 | h1
    · rcases categorizeOne_arts_mem base s a u h1 with h2 | h2
      · exact Or.inl h2
      · exact Or.inr (h2 ▸ List.mem_cons_self a t)
    · exact Or.inr (List.mem_cons_of_mem a h1)

theorem categorize_links_cats_mem (base : String) (links : List String)
    (s : CState) (u : String)
    (h : u ∈ (categorize_links base s links).found_catalog_links) :
    u ∈ s.found_catalog_links ∨ u ∈ links := by
  induction links generalizing s with
  | nil => exact Or.inl h
  | cons a t ih =>
    rcases ih (categorizeOne base s a) h with h1 | h1
    · rcases categorizeOne_cats_mem base s a u h1 with h2 | h2
      · exact Or.inl h2
      · exact Or.inr (h2 ▸ List.mem_cons_self a t)
    · exact Or.inr (List.mem_cons_of_mem a h1)

/-- Claim C5 (counterexample): NOT every URL inserted into the collector's
sets is normalized.  `_explore_main_pages_with_pagination` inserts the page
URL it constructed into `visited_pages` as is; for page 1 that is the base
URL `https://www.deeplearning.ai/the-batch/`, whose trailing slash is not
stripped, so it differs from its normalized form. -/
theorem C5_counterexample :
    "https://www.deeplearning.ai/the-batch/" ∈
      (explore_main_pages_with_pagination
        (fun n => if n = 1 then some [] else none) defaultBaseUrl 2
        ⟨[], [], []⟩).1.visited_pages ∧
    cleanUrl "https://www.deeplearning.ai/the-batch/" ≠
      "https://www.deeplearning.ai/the-batch/" := by
  decide

/-- Claim C5 (amended): every URL inserted into `found_article_links` or
`found_catalog_links` by categorizing the links extracted from a page is
normalized (query string, fragment and trailing slash stripped, so
`cleanUrl` fixes it), and membership tests on those two sets are exact-match
safe; `visited_pages`, however, stores the page URLs as constructed,
trailing slash included. -/
theorem C5_article_catalog_normalized (base : String) (hrefs : List String)
    (s : CState) (u : String) :
    (u ∈ (categorize_links base s
        (extract_links_from_page hrefs)).found_article_links →
      u ∈ s.found_article_links ∨ cleanUrl u = u) ∧
    (u ∈ (categorize_links base s
        (extract_links_from_page hrefs)).found_catalog_links →
      u ∈ s.found_catalog_links ∨ cleanUrl u = u) := by
  constructor
  · intro h
    rcases categorize_links_arts_mem base _ s u h with h1 | h1
    · exact Or.inl h1
    · exact Or.inr (foldl_extractStep_clean hrefs [] (by simp) u h1)
  · intro h
    rcases categorize_links_cats_mem base _ s u h with h1 | h1
    · exact Or.inl h1
    · exact Or.inr (foldl_extractStep_clean hrefs [] (by simp) u h1)

/-- Claim C5 witness: the amended theorem applied to one extracted page.  The
href `/the-batch/issue-1/?q=1` is made absolute, cleaned, and categorized as
an article, and the inserted URL is fixed by `cleanUrl`. -/
theorem C5_article_catalog_normalized_witness :
    "https://www.deeplearning.ai/the-batch/issue-1" ∈
      (⟨[], [], []⟩ : CState).found_article_links ∨
    cleanUrl "https://www.deeplearning.ai/the-batch/issue-1" =
      "https://www.deeplearning.ai/the-batch/issue-1" :=
  (C5_article_catalog_normalized defaultBaseUrl ["/the-batch/issue-1/?q=1"]
    ⟨[], [], []⟩ "https://www.deeplearning.ai/the-batch/issue-1").1 (by decide)

/-!
Claim C2: lemmas about the pagination loop.
-/

theorem categorizeOne_visited (base : String) (s : CState) (link : String) :
    (categorizeOne base s link).visited_pages = s.visited_pages := by
  unfold categorizeOne
  split
  · split <;> rfl
  · split
    · split <;> rfl
    · rfl

theorem categorize_links_visited (base : String) (links : List String) (s : CState) :
    (categorize_links base s links).visited_pages = s.visited_pages := by
  induction links generalizing s with
  | nil => rfl
  | cons a t ih =>
    rw [show categorize_links base s (a :: t) =
        categorize_links base (categorizeOne base s a) t from rfl,
      ih, categorizeOne_visited]

theorem categorizeOne_arts_fun (base : String) (s : CState) (link : String) :
    (categorizeOne base s link).found_article_links =
      artsAdd base s.found_article_links link := by
  by_cases hv : is_valid_article_link base link = true
  · by_cases hm : link ∈ s.found_article_links
    · simp [categorizeOne, artsAdd, hv, hm]
    · simp [categorizeOne, artsAdd, hv, hm]
  · by_cases hc : is_catalog_link link = true
    · by_cases hm : link ∈ s.found_catalog_links
      · simp [categorizeOne, artsAdd, hv, hc, hm]
      · simp [categorizeOne, artsAdd, hv, hc, hm]
    · simp [categorizeOne, artsAdd, hv, hc]

theorem categorize_links_arts_fun (base : String) (links : List String) (s : CState) :
    (categorize_links base s links).found_article_links =
      links.foldl (artsAdd base) s.found_article_links := by
  induction links generalizing s with
  | nil => rfl
  | cons a t ih =>
    rw [show categorize_links base s (a :: t) =
        categorize_links base (categorizeOne base s a) t from rfl,
      ih, categorizeOne_arts_fun]
    rfl

theorem artsAdd_foldl_grows (base : String) (l : List String) :
    ∀ arts, ∃ pre, l.foldl (artsAdd base) arts = pre ++ arts := by
  induction l with
  | nil => exact fun arts => ⟨[], rfl⟩
  | cons a t ih =>
    intro arts
    have hstep : artsAdd base arts a = arts ∨ artsAdd base arts a = a :: arts := by
      unfold artsAdd
      by_cases hv : is_valid_article_link base a = true
      · by_cases hm : a ∈ arts
        · simp [hv, hm]
        · simp [hv, hm]
      · simp [hv]
    obtain ⟨p, hp⟩ := ih (artsAdd base arts a)
    have hfold : (a :: t).foldl (artsAdd base) arts =
        t.foldl (artsAdd base) (artsAdd base arts a) := rfl
    rcases hstep with h | h
    · exact ⟨p, by rw [hfold, hp, h]⟩
    · exact ⟨p ++ [a], by rw [hfold, hp, h, List.append_cons]⟩

theorem exploreLoop_succ (fetch : Nat → Option (List String)) (urlOf : Nat → String)
    (base : String) (fuel cur cnt : Nat) (s : CState) :
    exploreLoop fetch urlOf base (fuel + 1) cur cnt s =
      match processPage fetch urlOf base cur cnt s with
      | .skip => (s, 0)
      | .fail => (s, 1)
      | .emptyStop s1 => (s1, 1)
      | .cont s2 cnt2 =>
        ((exploreLoop fetch urlOf base fuel (cur + 1) cnt2 s2).1,
         (exploreLoop fetch urlOf base fuel (cur + 1) cnt2 s2).2 + 1) := rfl

theorem exploreLoop_iter_le (fetch : Nat → Option (List String)) (urlOf : Nat → String)
    (base : String) :
    ∀ fuel cur cnt s, (exploreLoop fetch urlOf base fuel cur cnt s).2 ≤ fuel := by
  intro fuel
  induction fuel with
  | zero => intro cur cnt s; exact Nat.le_refl 0
  | succ n ih =>
    intro cur cnt s
    rw [exploreLoop_succ]
    cases hp : processPage fetch urlOf base cur cnt s with
    | skip => exact Nat.zero_le _
    | fail => exact Nat.succ_le_succ (Nat.zero_le n)
    | emptyStop s1 => exact Nat.succ_le_succ (Nat.zero_le n)
    | cont s2 cnt2 =>
      have h2 := ih (cur + 1) cnt2 s2
      show (exploreLoop fetch urlOf base n (cur + 1) cnt2 s2).2 + 1 ≤ n + 1
      omega

theorem processPage_cont_empty (fetch : Nat → Option (List String))
    (urlOf : Nat → String) (base : String) (cur cnt : Nat) (s : CState)
    (links : List String)
    (h1 : urlOf cur ∉ s.visited_pages) (h2 : fetch cur = some links)
    (h3 : links.foldl (artsAdd base) s.found_article_links = s.found_article_links)
    (h4 : cnt + 1 < 3) :
    processPage fetch urlOf base cur cnt s =
      .cont ⟨urlOf cur :: s.visited_pages, s.found_article_links,
             (categorize_links base s links).found_catalog_links⟩ (cnt + 1) := by
  have harts : (categorize_links base s links).found_article_links =
      s.found_article_links := by
    rw [categorize_links_arts_fun, h3]
  unfold processPage
  rw [if_neg h1, h2]
  show (if (categorize_links base s links).found_article_links.length -
      s.found_article_links.length = 0 then _ else _) = _
  rw [if_pos (by rw [harts]; exact Nat.sub_self _)]
  rw [if_neg (by omega : ¬ 3 ≤ cnt + 1)]
  congr 1
  rw [categorize_links_visited, List.insert_of_not_mem h1]
  show CState.mk (urlOf cur :: s.visited_pages)
      (categorize_links base s links).found_article_links
      (categorize_links base s links).found_catalog_links =
    CState.mk (urlOf cur :: s.visited_pages) s.found_article_links
      (categorize_links base s links).found_catalog_links
  rw [harts]

theorem processPage_empty_stop (fetch : Nat → Option (List String))
    (urlOf : Nat → String) (base : String) (cur cnt : Nat) (s : CState)
    (links : List String)
    (h1 : urlOf cur ∉ s.visited_pages) (h2 : fetch cur = some links)
    (h3 : links.foldl (artsAdd base) s.found_article_links = s.found_article_links)
    (h4 : 3 ≤ cnt + 1) :
    processPage fetch urlOf base cur cnt s =
      .emptyStop (categorize_links base s links) := by
  have harts : (categorize_links base s links).found_article_links =
      s.found_article_links := by
    rw [categorize_links_arts_fun, h3]
  unfold processPage
  rw [if_neg h1, h2]
  show (if (categorize_links base s links).found_article_links.length -
      s.found_article_links.length = 0 then _ else _) = _
  rw [if_pos (by rw [harts]; exact Nat.sub_self _)]
  rw [if_pos h4]

theorem processPage_cont_reset (fetch : Nat → Option (List String))
    (urlOf : Nat → String) (base : String) (cur cnt : Nat) (s : CState)
    (links : List String)
    (h1 : urlOf cur ∉ s.visited_pages) (h2 : fetch cur = some links)
    (h3 : links.foldl (artsAdd base) s.found_article_links ≠ s.found_article_links) :
    processPage fetch urlOf base cur cnt s =
      .cont ⟨urlOf cur :: s.visited_pages,
             (categorize_links base s links).found_article_links,
             (categorize_links base s links).found_catalog_links⟩ 0 := by
  have hlen : ¬ ((categorize_links base s links).found_article_links.length -
      s.found_article_links.length = 0) := by
    rw [categorize_links_arts_fun]
    obtain ⟨pre, hpre⟩ := artsAdd_foldl_grows base links s.found_article_links
    have hpre_ne : pre ≠ [] := by
      intro h0
      apply h3
      rw [hpre, h0]
      rfl
    have hpos : 0 < pre.length := List.length_pos.mpr hpre_ne
    rw [hpre, List.length_append]
    omega
  unfold processPage
  rw [if_neg h1, h2]
  show (if (categorize_links base s links).found_article_links.length -
      s.found_article_links.length = 0 then _ else _) = _
  rw [if_neg hlen]
  congr 1
  rw [categorize_links_visited, List.insert_of_not_mem h1]

theorem exploreLoop_three_empty (fetch : Nat → Option (List String))
    (urlOf : Nat → String) (base : String) (cur : Nat) (s : CState) (fuel : Nat)
    (hfuel : 3 ≤ fuel)
    (hv : ∀ i, i < 3 → urlOf (cur + i) ∉ s.visited_pages)
    (hd1 : urlOf cur ≠ urlOf (cur + 1)) (hd2 : urlOf cur ≠ urlOf (cur + 2))
    (hd3 : urlOf (cur + 1) ≠ urlOf (cur + 2))
    (hf : ∀ i, i < 3 → ∃ links, fetch (cur + i) = some links ∧
      links.foldl (artsAdd base) s.found_article_links = s.found_article_links) :
    (exploreLoop fetch urlOf base fuel cur 0 s).2 = 3 := by
  obtain ⟨k, rfl⟩ : ∃ k, fuel = k + 3 := ⟨fuel - 3, by omega⟩
  obtain ⟨l0, hf0, he0⟩ := hf 0 (by omega)
  obtain ⟨l1, hf1, he1⟩ := hf 1 (by omega)
  obtain ⟨l2, hf2, he2⟩ := hf 2 (by omega)
  have hv0 : urlOf cur ∉ s.visited_pages := by simpa using hv 0 (by omega)
  have hv1 := hv 1 (by omega)
  have hv2 := hv 2 (by omega)
  -- step 1: first empty page, counter 0 → 1
  have hp1 := processPage_cont_empty fetch urlOf base cur 0 s l0 hv0 hf0 he0 (by omega)
  rw [show k + 3 = k + 2 + 1 from rfl, exploreLoop_succ, hp1]
  show (exploreLoop fetch urlOf base (k + 2) (cur + 1) 1
    ⟨urlOf cur :: s.visited_pages, s.found_article_links,
     (categorize_links base s l0).found_catalog_links⟩).2 + 1 = 3
  -- step 2: second empty page, counter 1 → 2
  have hp2 := processPage_cont_empty fetch urlOf base (cur + 1) 1
    ⟨urlOf cur :: s.visited_pages, s.found_article_links,
     (categorize_links base s l0).found_catalog_links⟩ l1
    (by
      intro hmem
      rcases List.mem_cons.mp hmem with h | h
      · exact hd1 h.symm
      · exact hv1 h)
    hf1 he1 (by omega)
  rw [show k + 2 = k + 1 + 1 from rfl, exploreLoop_succ, hp2]
  show (exploreLoop fetch urlOf base (k + 1) (cur + 1 + 1) 2
    ⟨urlOf (cur + 1) :: urlOf cur :: s.visited_pages, s.found_article_links,
     (categorize_links base
       ⟨urlOf cur :: s.visited_pages, s.found_article_links,
        (categorize_links base s l0).found_catalog_links⟩
       l1).found_catalog_links⟩).2 + 1 + 1 = 3
  -- step 3: third empty page, counter 2 → stop
  rw [show cur + 1 + 1 = cur + 2 from rfl]
  have hp3 := processPage_empty_stop fetch urlOf base (cur + 2) 2
    ⟨urlOf (cur + 1) :: urlOf cur :: s.visited_pages, s.found_article_links,
     (categorize_links base
       ⟨urlOf cur :: s.visited_pages, s.found_article_links,
        (categorize_links base s l0).found_catalog_links⟩
       l1).found_catalog_links⟩ l2
    (by
      intro hmem
      rcases List.mem_cons.mp hmem with h | h
      · exact hd3 h.symm
      · rcases List.mem_cons.mp h with h' | h'
        · exact hd2 h'.symm
        · exact hv2 h')
    hf2 he2 (by omega)
  rw [exploreLoop_succ, hp3]

/-- Claim C2: the pagination walks perform at most `max_pages` page fetches
(they terminate even when every page yields new links); starting with a zero
consecutive-empty counter, three consecutive fetched pages that each yield no
new article link make the walk stop at the third such page (exactly 3 more
fetches); and a page that yields at least one new article link continues with
the consecutive-empty counter reset to 0. -/
theorem C2_pagination_walk :
    (∀ fetch base maxPages s,
      (explore_main_pages_with_pagination fetch base maxPages s).2 ≤ maxPages) ∧
    (∀ fetch base catalog maxPages s,
      (explore_catalog_with_pagination fetch base catalog maxPages s).2 ≤ maxPages) ∧
    (∀ (fetch : Nat → Option (List String)) (urlOf : Nat → String) base cur s fuel,
      3 ≤ fuel →
      (∀ i, i < 3 → urlOf (cur + i) ∉ s.visited_pages) →
      urlOf cur ≠ urlOf (cur + 1) → urlOf cur ≠ urlOf (cur + 2) →
      urlOf (cur + 1) ≠ urlOf (cur + 2) →
      (∀ i, i < 3 → ∃ links, fetch (cur + i) = some links ∧
        links.foldl (artsAdd base) s.found_article_links = s.found_article_links) →
      (exploreLoop fetch urlOf base fuel cur 0 s).2 = 3) ∧
    (∀ (fetch : Nat → Option (List String)) (urlOf : Nat → String) base cur cnt s links,
      urlOf cur ∉ s.visited_pages → fetch cur = some links →
      links.foldl (artsAdd base) s.found_article_links ≠ s.found_article_links →
      ∃ s2, processPage fetch urlOf base cur cnt s = .cont s2 0) :=
  ⟨fun fetch base maxPages s => exploreLoop_iter_le fetch (mainPageUrl base) base
      maxPages 1 0 s,
   fun fetch base catalog maxPages s => exploreLoop_iter_le fetch
      (catalogPageUrl catalog) base maxPages 1 0 s,
   fun fetch urlOf base cur s fuel hfuel hv hd1 hd2 hd3 hf =>
     exploreLoop_three_empty fetch urlOf base cur s fuel hfuel hv hd1 hd2 hd3 hf,
   fun fetch urlOf base cur cnt s links h1 h2 h3 =>
     ⟨_, processPage_cont_reset fetch urlOf base cur cnt s links h1 h2 h3⟩⟩

/-- Claim C2 witness: the theorem applied to concrete walks.  A fetch that
always returns an empty page makes the walk stop after exactly 3 fetches; the
iteration count never exceeds the page cap; and a page carrying a new article
link continues with counter 0. -/
theorem C2_pagination_walk_witness :
    (explore_main_pages_with_pagination (fun _ => some []) "b" 5 ⟨[], [], []⟩).2 ≤ 5 ∧
    (explore_catalog_with_pagination (fun _ => some []) "b" "b/tag/t" 4
      ⟨[], [], []⟩).2 ≤ 4 ∧
    (exploreLoop (fun _ => some []) (mainPageUrl "b") "b" 3 1 0 ⟨[], [], []⟩).2 = 3 ∧
    (∃ s2, processPage (fun _ => some ["b/the-batch/issue-1"]) (mainPageUrl "b")
      "b" 1 0 ⟨[], [], []⟩ = .cont s2 0) := by
  refine ⟨C2_pagination_walk.1 _ _ _ _, C2_pagination_walk.2.1 _ _ _ _ _,
    C2_pagination_walk.2.2.1 _ _ _ _ _ _ (by omega) ?_ (by decide) (by decide)
      (by decide) ?_,
    C2_pagination_walk.2.2.2 _ _ _ _ _ _ _ (by decide) rfl (by decide)⟩
  · intro i hi
    simp
  · intro i hi
    exact ⟨[], rfl, rfl⟩

end Scraper
